import Mathlib

/-!
Verification of the WaveClock repository: a shallow embedding of the
two application variants (src/src/index.js and src/unnamed/part_000)
over the real numbers.  The GLSL vertex shader (value noise, rotation
matrix, two-layer displacement) is identical in both variants and is
embedded once; the per-frame clock-to-parameter update and the time
formatter differ between variants and are embedded per variant, in the
namespaces WaveClock.IndexJs and WaveClock.Part000.

Floating-point values of the source are idealized as real numbers.  The
shader constant PI, written in the source as the decimal approximation
3.14159265359, and the JavaScript constant Math.PI are both idealized to
the real number pi.
-/

namespace WaveClock

/-- Wall-clock reading sampled from the system clock each frame
(`date.getHours()`, `getMinutes()`, `getSeconds()`, `getMilliseconds()`
in `updateScene`).  `hours` holds the raw 24-hour reading; both variants
reduce it modulo 12 inside the update. -/
structure ClockSample where
  hours : ℕ
  minutes : ℕ
  seconds : ℕ
  milliseconds : ℕ
deriving DecidableEq, Repr

/-- Validity of a clock sample, with hours already in 12-hour range, as
the spec's ClockSample data model states: hours in [0,11], minutes in
[0,59], seconds in [0,59], milliseconds in [0,999]. -/
def ClockSample.Valid (c : ClockSample) : Prop :=
  c.hours ≤ 11 ∧ c.minutes ≤ 59 ∧ c.seconds ≤ 59 ∧ c.milliseconds ≤ 999

instance (c : ClockSample) : Decidable c.Valid := by
  unfold ClockSample.Valid; infer_instance

/-- The six per-layer scalar uniforms written by `updateScene` each
frame and read by the vertex shader. -/
structure Uniforms where
  u_noise_amp_1 : ℝ
  u_noise_amp_2 : ℝ
  u_noise_freq_1 : ℝ
  u_noise_freq_2 : ℝ
  u_spd_modifier_1 : ℝ
  u_spd_modifier_2 : ℝ

/-! GLSL vector helpers: componentwise scalar multiplication, and the
broadcast addition/subtraction of a scalar to a vec2 (GLSL `v * s`,
`v + s`, `v - s`). -/

/-- GLSL dot product of two vec2. -/
def dot2 (a b : ℝ × ℝ) : ℝ := a.1 * b.1 + a.2 * b.2

/-- GLSL componentwise vec2-times-scalar. -/
def scaleV (v : ℝ × ℝ) (s : ℝ) : ℝ × ℝ := (v.1 * s, v.2 * s)

/-- GLSL broadcast vec2-plus-scalar. -/
def addS (v : ℝ × ℝ) (s : ℝ) : ℝ × ℝ := (v.1 + s, v.2 + s)

/-- GLSL broadcast vec2-minus-scalar. -/
def subS (v : ℝ × ℝ) (s : ℝ) : ℝ × ℝ := (v.1 - s, v.2 - s)

/-- GLSL `mix(x, y, a) = x*(1-a) + y*a`. -/
def mix (x y a : ℝ) : ℝ := x * (1 - a) + y * a

/-- GLSL componentwise `floor` of a vec2. -/
noncomputable def floorV (v : ℝ × ℝ) : ℝ × ℝ := ((⌊v.1⌋ : ℝ), (⌊v.2⌋ : ℝ))

/-- GLSL componentwise `fract` of a vec2. -/
noncomputable def fractV (v : ℝ × ℝ) : ℝ × ℝ := (Int.fract v.1, Int.fract v.2)

/-- Shader function `random` (both variants, lines 71-75 resp. 69-73):
`fract(sin(dot(st.xy, vec2(12.9898, 78.233))) * 43758.5453123)`. -/
noncomputable def random (st : ℝ × ℝ) : ℝ :=
  Int.fract (Real.sin (dot2 st (12.9898, 78.233)) * 43758.5453123)

/-- Shader function `noise` (both variants): 2D value noise.  Corner
hashes of the integer cell are blended with the cubic Hermite weights
`u = f*f*(3-2*f)` via
`mix(a,b,u.x) + (c-a)*u.y*(1-u.x) + (d-b)*u.x*u.y`. -/
noncomputable def noise (st : ℝ × ℝ) : ℝ :=
  let i := floorV st
  let f := fractV st
  let a := random i
  let b := random (i.1 + 1, i.2)
  let c := random (i.1, i.2 + 1)
  let d := random (i.1 + 1, i.2 + 1)
  let u : ℝ × ℝ := (f.1 * f.1 * (3 - 2 * f.1), f.2 * f.2 * (3 - 2 * f.2))
  mix a b u.1 + (c - a) * u.2 * (1 - u.1) + (d - b) * u.1 * u.2

/-- Shader constant `PI` (source: `#define PI 3.14159265359`, the
decimal approximation of pi, idealized here to the real pi). -/
noncomputable def PI : ℝ := Real.pi

/-- Shader function `rotate2d`.  The source constructs
`mat2(cos(angle), -sin(angle), sin(angle), cos(angle))`; GLSL matrix
constructors are column-major, so the first column is
`(cos, -sin)` and the second `(sin, cos)`, and applying the matrix to a
vector `v` yields the value below.  As a linear map this is the plane
rotation through `-angle` (a 2D rotation matrix). -/
noncomputable def rotate2d (angle : ℝ) (v : ℝ × ℝ) : ℝ × ℝ :=
  (Real.cos angle * v.1 + Real.sin angle * v.2,
   -Real.sin angle * v.1 + Real.cos angle * v.2)

/-- Vertex shader `main` (both variants), restricted to the quantity the
claims are about: the z component of `pos` after the two noise layers
are added.  Source:
`pos.z += noise(pos.xy * u_noise_freq_1 + u_time * u_spd_modifier_1) * u_noise_amp_1;`
`pos.z += noise(rotate2d(PI / 4.) * pos.yx * u_noise_freq_2 - u_time * u_spd_modifier_2 * 0.6) * u_noise_amp_2;`
The position is `(x, y, z)` with `pos.xy = (x, y)` and `pos.yx = (y, x)`. -/
noncomputable def vertexMainZ (pos : ℝ × ℝ × ℝ)
    (u_time u_noise_amp_1 u_noise_freq_1 u_spd_modifier_1
     u_noise_amp_2 u_noise_freq_2 u_spd_modifier_2 : ℝ) : ℝ :=
  let z1 := pos.2.2 +
    noise (addS (scaleV (pos.1, pos.2.1) u_noise_freq_1)
      (u_time * u_spd_modifier_1)) * u_noise_amp_1
  let z2 := z1 +
    noise (subS (scaleV (rotate2d (PI / 4) (pos.2.1, pos.1)) u_noise_freq_2)
      (u_time * u_spd_modifier_2 * 0.6)) * u_noise_amp_2
  z2

/-- Swap of the two components of a vec2 (the spec's `swap`, the
shader's `pos.yx`). -/
def swap (v : ℝ × ℝ) : ℝ × ℝ := (v.2, v.1)

/-- Modelled from the spec's DisplacementEngine formula:
`z = amp1 * noise(position * freq1 + elapsedTime * speed1)
   + amp2 * noise(R(pi/4) * swap(position) * freq2 - elapsedTime * speed2 * 0.6)`.
`Rrot` below plays the role of `R`: the spec asks for "a 2D rotation
matrix", and `Rrot angle` is the rotation matrix the shader's
`rotate2d(angle)` denotes (the plane rotation through `-angle`; see
`rotate2d`). -/
noncomputable def Rrot (angle : ℝ) (v : ℝ × ℝ) : ℝ × ℝ :=
  (Real.cos angle * v.1 + Real.sin angle * v.2,
   -Real.sin angle * v.1 + Real.cos angle * v.2)

/-- Modelled from the spec: the displacement added to a vertex, written
exactly as the spec's formula (two amplitude-scaled noise lookups, the
second on the swapped, rotated position with the negated, 0.6-scaled
time term). -/
noncomputable def displace (position : ℝ × ℝ) (elapsedTime : ℝ)
    (amp1 freq1 spd1 amp2 freq2 spd2 : ℝ) : ℝ :=
  amp1 * noise (addS (scaleV position freq1) (elapsedTime * spd1)) +
  amp2 * noise (subS (scaleV (Rrot (Real.pi / 4) (swap position)) freq2)
    (elapsedTime * spd2 * 0.6))

/-- JavaScript `s.padStart(2, "0")`: prepend zeros up to length 2. -/
def padStart2 (s : String) : String :=
  String.mk (List.replicate (2 - s.length) ('0')) ++ s

namespace IndexJs

/-- Phase constant of src/src/index.js: `MIDNIGHT = Math.PI * 0.5`. -/
noncomputable def MIDNIGHT : ℝ := Real.pi * 0.5

/-- src/src/index.js: `fractionalSeconds = seconds + milliseconds / 1000`. -/
noncomputable def fractionalSeconds (c : ClockSample) : ℝ :=
  (c.seconds : ℝ) + (c.milliseconds : ℝ) / 1000

/-- src/src/index.js: `fractionalMinutes = minutes + fractionalSeconds / 60`. -/
noncomputable def fractionalMinutes (c : ClockSample) : ℝ :=
  (c.minutes : ℝ) + fractionalSeconds c / 60

/-- src/src/index.js: `fractionalHours = hours + fractionalMinutes / 60`,
where `hours = date.getHours() % 12`. -/
noncomputable def fractionalHours (c : ClockSample) : ℝ :=
  ((c.hours % 12 : ℕ) : ℝ) + fractionalMinutes c / 60

/-- src/src/index.js: `hourRotation = MIDNIGHT - Math.PI * 2 * (fractionalHours) / 12`. -/
noncomputable def hourRotation (c : ClockSample) : ℝ :=
  MIDNIGHT - Real.pi * 2 * fractionalHours c / 12

/-- src/src/index.js: `minuteRotation = MIDNIGHT - Math.PI * 2 * (fractionalMinutes) / 60`. -/
noncomputable def minuteRotation (c : ClockSample) : ℝ :=
  MIDNIGHT - Real.pi * 2 * fractionalMinutes c / 60

/-- src/src/index.js: `secondRotation = MIDNIGHT - Math.PI * 2 * (fractionalSeconds) / 60`. -/
noncomputable def secondRotation (c : ClockSample) : ℝ :=
  MIDNIGHT - Real.pi * 2 * fractionalSeconds c / 60

/-- The uniform writes of src/src/index.js `updateScene` (lines 302-310):
amplitude `0.1 + Math.abs(Math.sin(secondRotation)) * 0.4`, frequency
`0.25 + Math.abs(Math.sin(minuteRotation)) * 2.5`, speed
`0.3 + Math.abs(Math.sin(hourRotation)) * 1.5`, identically for both
layers. -/
noncomputable def updateScene (c : ClockSample) : Uniforms :=
  { u_noise_amp_1 := 0.1 + |Real.sin (secondRotation c)| * 0.4
    u_noise_amp_2 := 0.1 + |Real.sin (secondRotation c)| * 0.4
    u_noise_freq_1 := 0.25 + |Real.sin (minuteRotation c)| * 2.5
    u_noise_freq_2 := 0.25 + |Real.sin (minuteRotation c)| * 2.5
    u_spd_modifier_1 := 0.3 + |Real.sin (hourRotation c)| * 1.5
    u_spd_modifier_2 := 0.3 + |Real.sin (hourRotation c)| * 1.5 }

/-- src/src/index.js `formatTime` (lines 262-270): pads minutes and
seconds to two digits, maps hour 0 to 12, and returns the template
string `${hours}:${minutes} ${ampm}` (the padded seconds are computed
but do not appear in the returned string). -/
def formatTime (hours minutes seconds : ℕ) (ampm : String) : String :=
  let minutesS := padStart2 (Nat.repr minutes)
  let secondsS := padStart2 (Nat.repr seconds)
  let hoursN := if hours = 0 then 12 else hours
  Nat.repr hoursN ++ ":" ++ minutesS ++ " " ++ ampm

/-- The second angle of src/src/index.js as a function of the fractional
seconds value (the claims quantify over fracSeconds directly):
`secondRotation = secondAngleOf (fractionalSeconds c)`. -/
noncomputable def secondAngleOf (x : ℝ) : ℝ := MIDNIGHT - Real.pi * 2 * x / 60

/-- The minute angle of src/src/index.js as a function of the fractional
minutes value. -/
noncomputable def minuteAngleOf (x : ℝ) : ℝ := MIDNIGHT - Real.pi * 2 * x / 60

/-- The hour angle of src/src/index.js as a function of the fractional
hours value. -/
noncomputable def hourAngleOf (x : ℝ) : ℝ := MIDNIGHT - Real.pi * 2 * x / 12

end IndexJs

namespace Part000

/-- Phase constant of src/unnamed/part_000: `MIDNIGHT = Math.PI * -0.5`. -/
noncomputable def MIDNIGHT : ℝ := Real.pi * (-0.5)

/-- src/unnamed/part_000 (line 222):
`hourRotation = MIDNIGHT - Math.PI * 2 * (hours + minutes / 60) / 12`,
with `hours = date.getHours() % 12` (no seconds or milliseconds term). -/
noncomputable def hourRotation (c : ClockSample) : ℝ :=
  MIDNIGHT - Real.pi * 2 * (((c.hours % 12 : ℕ) : ℝ) + (c.minutes : ℝ) / 60) / 12

/-- src/unnamed/part_000 (line 223):
`minuteRotation = MIDNIGHT - Math.PI * 2 * (minutes + seconds / 60) / 60`
(no milliseconds term). -/
noncomputable def minuteRotation (c : ClockSample) : ℝ :=
  MIDNIGHT - Real.pi * 2 * ((c.minutes : ℝ) + (c.seconds : ℝ) / 60) / 60

/-- src/unnamed/part_000 (line 224):
`secondRotation = MIDNIGHT - Math.PI * 2 * (seconds + milliseconds / 1000) / 60`. -/
noncomputable def secondRotation (c : ClockSample) : ℝ :=
  MIDNIGHT - Real.pi * 2 * ((c.seconds : ℝ) + (c.milliseconds : ℝ) / 1000) / 60

/-- The uniform writes of src/unnamed/part_000 `updateScene` (lines
229-237): layer 1 uses `sin`, layer 2 uses `cos`, of the same angle,
with bases 0.1 / 0.1 / 0.01 and ranges 0.5 / 2.75 / 1.5. -/
noncomputable def updateScene (c : ClockSample) : Uniforms :=
  { u_noise_amp_1 := 0.1 + Real.sin (secondRotation c) * 0.5
    u_noise_amp_2 := 0.1 + Real.cos (secondRotation c) * 0.5
    u_noise_freq_1 := 0.1 + Real.sin (minuteRotation c) * 2.75
    u_noise_freq_2 := 0.1 + Real.cos (minuteRotation c) * 2.75
    u_spd_modifier_1 := 0.01 + Real.sin (hourRotation c) * 1.5
    u_spd_modifier_2 := 0.01 + Real.cos (hourRotation c) * 1.5 }

/-- src/unnamed/part_000 `formatTime` (lines 202-207): the template
string `${hours}:${minutes}:${seconds}` with minutes and seconds padded
to two digits; hours are rendered as given (no 0-to-12 mapping). -/
def formatTime (hours minutes seconds : ℕ) : String :=
  Nat.repr hours ++ ":" ++ padStart2 (Nat.repr minutes) ++ ":" ++
    padStart2 (Nat.repr seconds)

/-- The second angle of src/unnamed/part_000 as a function of the
fractional seconds value. -/
noncomputable def secondAngleOf (x : ℝ) : ℝ := MIDNIGHT - Real.pi * 2 * x / 60

end Part000

/-! Helper lemmas for the noise bounds. -/

/-- The corner hash is nonnegative (it is a `fract`). -/
lemma random_nonneg (v : ℝ × ℝ) : 0 ≤ random v := Int.fract_nonneg _

/-- The corner hash is below one (it is a `fract`). -/
lemma random_lt_one (v : ℝ × ℝ) : random v < 1 := Int.fract_lt_one _

/-- The cubic Hermite curve maps [0,1] into [0,1]. -/
lemma hermite_mem {t : ℝ} (h0 : 0 ≤ t) (h1 : t ≤ 1) :
    0 ≤ t * t * (3 - 2 * t) ∧ t * t * (3 - 2 * t) ≤ 1 := by
  constructor
  · nlinarith
  · nlinarith [mul_nonneg (sq_nonneg (1 - t)) (by linarith : (0:ℝ) ≤ 1 + 2 * t)]

/-- The corner blend used by `noise` is a convex combination of the four
corner values: with weights in [0,1] and corner values in [0,1] the
result stays in [0,1]. -/
lemma blend_bounds {a b c d u1 u2 : ℝ}
    (ha0 : 0 ≤ a) (ha1 : a ≤ 1) (hb0 : 0 ≤ b) (hb1 : b ≤ 1)
    (hc0 : 0 ≤ c) (hc1 : c ≤ 1) (hd0 : 0 ≤ d) (hd1 : d ≤ 1)
    (h10 : 0 ≤ u1) (h11 : u1 ≤ 1) (h20 : 0 ≤ u2) (h21 : u2 ≤ 1) :
    0 ≤ mix a b u1 + (c - a) * u2 * (1 - u1) + (d - b) * u1 * u2 ∧
      mix a b u1 + (c - a) * u2 * (1 - u1) + (d - b) * u1 * u2 ≤ 1 := by
  have w1 : (0:ℝ) ≤ 1 - u1 := by linarith
  have w2 : (0:ℝ) ≤ 1 - u2 := by linarith
  have key : mix a b u1 + (c - a) * u2 * (1 - u1) + (d - b) * u1 * u2 =
      a * ((1 - u1) * (1 - u2)) + b * (u1 * (1 - u2)) +
        c * ((1 - u1) * u2) + d * (u1 * u2) := by
    simp only [mix]; ring
  constructor
  · rw [key]
    refine add_nonneg (add_nonneg (add_nonneg ?_ ?_) ?_) ?_
    · exact mul_nonneg ha0 (mul_nonneg w1 w2)
    · exact mul_nonneg hb0 (mul_nonneg h10 w2)
    · exact mul_nonneg hc0 (mul_nonneg w1 h20)
    · exact mul_nonneg hd0 (mul_nonneg h10 h20)
  · rw [key]
    nlinarith [mul_nonneg (by linarith : (0:ℝ) ≤ 1 - a) (mul_nonneg w1 w2),
      mul_nonneg (by linarith : (0:ℝ) ≤ 1 - b) (mul_nonneg h10 w2),
      mul_nonneg (by linarith : (0:ℝ) ≤ 1 - c) (mul_nonneg w1 h20),
      mul_nonneg (by linarith : (0:ℝ) ≤ 1 - d) (mul_nonneg h10 h20)]

/-- C7: for every input vector, `noise` lies in [0,1]: the corner hashes
lie in [0,1), the Hermite blend weights lie in [0,1], and the blended
result is therefore bounded between 0 and 1. -/
theorem c7_noise_in_unit_interval (st : ℝ × ℝ) :
    0 ≤ noise st ∧ noise st ≤ 1 := by
  have hx := hermite_mem (Int.fract_nonneg st.1) (le_of_lt (Int.fract_lt_one st.1))
  have hy := hermite_mem (Int.fract_nonneg st.2) (le_of_lt (Int.fract_lt_one st.2))
  simp only [noise, floorV, fractV]
  exact blend_bounds (random_nonneg _) (le_of_lt (random_lt_one _))
    (random_nonneg _) (le_of_lt (random_lt_one _))
    (random_nonneg _) (le_of_lt (random_lt_one _))
    (random_nonneg _) (le_of_lt (random_lt_one _))
    hx.1 hx.2 hy.1 hy.2

/-- C2: the vertex displacement computed by the shader equals the spec
formula `amp1 * noise(p * freq1 + t * speed1) + amp2 * noise(R(pi/4) *
swap(p) * freq2 - t * speed2 * 0.6)`, and the matrix `Rrot (pi/4)`
playing the role of `R` is a 2D rotation matrix: it preserves the
squared norm and has determinant `cos^2 + sin^2 = 1`. -/
theorem c2_vertex_displacement_formula (pos : ℝ × ℝ × ℝ)
    (t a1 f1 s1 a2 f2 s2 : ℝ) :
    vertexMainZ pos t a1 f1 s1 a2 f2 s2 =
      pos.2.2 + displace (pos.1, pos.2.1) t a1 f1 s1 a2 f2 s2 ∧
    (∀ v : ℝ × ℝ, dot2 (Rrot (Real.pi / 4) v) (Rrot (Real.pi / 4) v) = dot2 v v) ∧
    Real.cos (Real.pi / 4) * Real.cos (Real.pi / 4) -
      -Real.sin (Real.pi / 4) * Real.sin (Real.pi / 4) = 1 := by
  refine ⟨?_, ?_, ?_⟩
  · simp only [vertexMainZ, displace, rotate2d, Rrot, PI, addS, subS, scaleV, swap]
    ring
  · intro v
    simp only [Rrot, dot2]
    linear_combination (v.1 ^ 2 + v.2 ^ 2) * Real.sin_sq_add_cos_sq (Real.pi / 4)
  · linear_combination Real.sin_sq_add_cos_sq (Real.pi / 4)

/-- C3 counterexample: in the part_000 variant there is no single fixed
MIDNIGHT constant for which the hour angle equals
`MIDNIGHT - 2 pi * fracHours / 12` with
`fracHours = (hours mod 12) + (minutes + (seconds + ms/1000)/60)/60`:
the samples 00:00:00.000 and 00:00:30.000 already force a
contradiction, because part_000 drops the seconds term from its hour
angle. -/
theorem c3_part000_hour_angle_not_fractional :
    ¬ ∃ M : ℝ, ∀ c : ClockSample,
      Part000.hourRotation c =
        M - Real.pi * 2 * (((c.hours % 12 : ℕ) : ℝ) +
          ((c.minutes : ℝ) + ((c.seconds : ℝ) + (c.milliseconds : ℝ) / 1000) / 60)
            / 60) / 12 := by
  rintro ⟨M, hM⟩
  have h0 := hM ⟨0, 0, 0, 0⟩
  have h1 := hM ⟨0, 0, 30, 0⟩
  simp only [Part000.hourRotation, Part000.MIDNIGHT] at h0 h1
  norm_num at h0 h1
  linarith [Real.pi_pos]

/-- C3 amended: the index.js variant computes exactly the claimed
fractional chain with MIDNIGHT = pi/2; the part_000 variant uses
MIDNIGHT = -pi/2 and coarser fractions, dropping the seconds and
milliseconds contribution from the hour angle and the milliseconds
contribution from the minute angle. -/
theorem c3_rotation_angle_formulas (c : ClockSample) :
    IndexJs.secondRotation c =
      Real.pi / 2 - Real.pi * 2 *
        ((c.seconds : ℝ) + (c.milliseconds : ℝ) / 1000) / 60 ∧
    IndexJs.minuteRotation c =
      Real.pi / 2 - Real.pi * 2 *
        ((c.minutes : ℝ) + ((c.seconds : ℝ) + (c.milliseconds : ℝ) / 1000) / 60)
          / 60 ∧
    IndexJs.hourRotation c =
      Real.pi / 2 - Real.pi * 2 *
        (((c.hours % 12 : ℕ) : ℝ) +
          ((c.minutes : ℝ) + ((c.seconds : ℝ) + (c.milliseconds : ℝ) / 1000) / 60)
            / 60) / 12 ∧
    Part000.secondRotation c =
      -(Real.pi / 2) - Real.pi * 2 *
        ((c.seconds : ℝ) + (c.milliseconds : ℝ) / 1000) / 60 ∧
    Part000.minuteRotation c =
      -(Real.pi / 2) - Real.pi * 2 * ((c.minutes : ℝ) + (c.seconds : ℝ) / 60) / 60 ∧
    Part000.hourRotation c =
      -(Real.pi / 2) - Real.pi * 2 *
        (((c.hours % 12 : ℕ) : ℝ) + (c.minutes : ℝ) / 60) / 12 := by
  refine ⟨?_, ?_, ?_, ?_, ?_, ?_⟩ <;>
    simp only [IndexJs.secondRotation, IndexJs.minuteRotation, IndexJs.hourRotation,
      IndexJs.fractionalSeconds, IndexJs.fractionalMinutes, IndexJs.fractionalHours,
      IndexJs.MIDNIGHT, Part000.secondRotation, Part000.minuteRotation,
      Part000.hourRotation, Part000.MIDNIGHT] <;> ring

/-- Helper: the part_000 second angle at the 00:00:00.000 sample is
exactly -pi/2. -/
lemma part000_secondRotation_midnight :
    Part000.secondRotation ⟨0, 0, 0, 0⟩ = -(Real.pi / 2) := by
  simp only [Part000.secondRotation, Part000.MIDNIGHT]
  norm_num
  ring

/-- Helper: the part_000 minute angle at the 00:00:00.000 sample is
exactly -pi/2. -/
lemma part000_minuteRotation_midnight :
    Part000.minuteRotation ⟨0, 0, 0, 0⟩ = -(Real.pi / 2) := by
  simp only [Part000.minuteRotation, Part000.MIDNIGHT]
  norm_num
  ring

/-- C1: at the valid sample 00:00:00.000 the part_000 per-frame update
writes a negative amplitude (-0.4) and a negative frequency (-2.65) for
layer 1, violating the required non-negativity of amplitude and
frequency parameters. -/
theorem c1_part000_params_negative_at_midnight :
    ClockSample.Valid ⟨0, 0, 0, 0⟩ ∧
    (Part000.updateScene ⟨0, 0, 0, 0⟩).u_noise_amp_1 = -0.4 ∧
    (Part000.updateScene ⟨0, 0, 0, 0⟩).u_noise_amp_1 < 0 ∧
    (Part000.updateScene ⟨0, 0, 0, 0⟩).u_noise_freq_1 = -2.65 ∧
    (Part000.updateScene ⟨0, 0, 0, 0⟩).u_noise_freq_1 < 0 := by
  refine ⟨by decide, ?_, ?_, ?_, ?_⟩ <;>
    simp only [Part000.updateScene, part000_secondRotation_midnight,
      part000_minuteRotation_midnight, Real.sin_neg, Real.sin_pi_div_two] <;>
    norm_num

/-- Helper: the index.js second angle at the 00:00:40.000 sample is
exactly -(5 pi / 6), whose sine is -1/2. -/
lemma indexjs_secondRotation_forty :
    IndexJs.secondRotation ⟨0, 0, 40, 0⟩ = -(5 * Real.pi / 6) := by
  simp only [IndexJs.secondRotation, IndexJs.fractionalSeconds, IndexJs.MIDNIGHT]
  norm_num
  ring

/-- C4 counterexample: in the index.js variant the amplitude pair is not
"sin for one layer and a distinct phase-shifted variant for the other":
at the sample 00:00:40.000 both layers' amplitudes equal 0.3 (the same
abs-sin remap), while the plain-sin remap of the same angle would give
-0.1, so neither layer applies sin. -/
theorem c4_indexjs_remap_not_sin :
    (IndexJs.updateScene ⟨0, 0, 40, 0⟩).u_noise_amp_1 =
      (IndexJs.updateScene ⟨0, 0, 40, 0⟩).u_noise_amp_2 ∧
    (IndexJs.updateScene ⟨0, 0, 40, 0⟩).u_noise_amp_1 = 0.3 ∧
    0.1 + Real.sin (IndexJs.secondRotation ⟨0, 0, 40, 0⟩) * 0.4 = -(0.1:ℝ) ∧
    (IndexJs.updateScene ⟨0, 0, 40, 0⟩).u_noise_amp_1 ≠
      0.1 + Real.sin (IndexJs.secondRotation ⟨0, 0, 40, 0⟩) * 0.4 ∧
    (IndexJs.updateScene ⟨0, 0, 40, 0⟩).u_noise_amp_2 ≠
      0.1 + Real.sin (IndexJs.secondRotation ⟨0, 0, 40, 0⟩) * 0.4 := by
  have hsin : Real.sin (IndexJs.secondRotation ⟨0, 0, 40, 0⟩) = -(1 / 2) := by
    rw [indexjs_secondRotation_forty, Real.sin_neg]
    have h56 : 5 * Real.pi / 6 = Real.pi - Real.pi / 6 := by ring
    rw [h56, Real.sin_pi_sub, Real.sin_pi_div_six]
  refine ⟨rfl, ?_, ?_, ?_, ?_⟩ <;>
    simp only [IndexJs.updateScene, hsin, abs_neg,
      abs_of_nonneg (by norm_num : (0:ℝ) ≤ 1 / 2)] <;> norm_num

/-- C4 amended: in part_000 each parameter pair applies sin to the angle
for layer 1 and the phase-shifted variant sin(angle + pi/2) = cos(angle)
for layer 2; in index.js both layers apply one and the same abs-sin
remap, so the two layers' remaps are identical rather than distinct. -/
theorem c4_remap_structure (c : ClockSample) :
    (Part000.updateScene c).u_noise_amp_1 =
      0.1 + Real.sin (Part000.secondRotation c) * 0.5 ∧
    (Part000.updateScene c).u_noise_amp_2 =
      0.1 + Real.sin (Part000.secondRotation c + Real.pi / 2) * 0.5 ∧
    (Part000.updateScene c).u_noise_freq_1 =
      0.1 + Real.sin (Part000.minuteRotation c) * 2.75 ∧
    (Part000.updateScene c).u_noise_freq_2 =
      0.1 + Real.sin (Part000.minuteRotation c + Real.pi / 2) * 2.75 ∧
    (Part000.updateScene c).u_spd_modifier_1 =
      0.01 + Real.sin (Part000.hourRotation c) * 1.5 ∧
    (Part000.updateScene c).u_spd_modifier_2 =
      0.01 + Real.sin (Part000.hourRotation c + Real.pi / 2) * 1.5 ∧
    (IndexJs.updateScene c).u_noise_amp_1 =
      0.1 + |Real.sin (IndexJs.secondRotation c)| * 0.4 ∧
    (IndexJs.updateScene c).u_noise_amp_2 = (IndexJs.updateScene c).u_noise_amp_1 := by
  refine ⟨rfl, ?_, rfl, ?_, rfl, ?_, rfl, rfl⟩ <;>
    simp only [Part000.updateScene, Real.sin_add_pi_div_two]

/-- C5 counterexample: at hours = 0 (12-hour convention), minutes = 5,
seconds = 9, neither variant renders "12:05:09" (with or without an
AM/PM suffix): index.js renders "12:05 AM" / "12:05 PM" (seconds are
dropped from the formatted string) and part_000 renders "0:05:09"
(hour 0 is not mapped to 12). -/
theorem c5_format_time_not_full_string :
    IndexJs.formatTime 0 5 9 ("AM") = "12:05 AM" ∧
    IndexJs.formatTime 0 5 9 ("PM") = "12:05 PM" ∧
    Part000.formatTime 0 5 9 = "0:05:09" ∧
    IndexJs.formatTime 0 5 9 ("AM") ≠ "12:05:09" ∧
    IndexJs.formatTime 0 5 9 ("AM") ≠ "12:05:09 AM" ∧
    IndexJs.formatTime 0 5 9 ("AM") ≠ "12:05:09 PM" ∧
    IndexJs.formatTime 0 5 9 ("PM") ≠ "12:05:09" ∧
    IndexJs.formatTime 0 5 9 ("PM") ≠ "12:05:09 AM" ∧
    IndexJs.formatTime 0 5 9 ("PM") ≠ "12:05:09 PM" ∧
    Part000.formatTime 0 5 9 ≠ "12:05:09" ∧
    Part000.formatTime 0 5 9 ≠ "12:05:09 AM" ∧
    Part000.formatTime 0 5 9 ≠ "12:05:09 PM" := by
  decide

/-- C5 amended: for hours = 0, minutes = 5, seconds = 9 the index.js
variant maps hour 0 to 12, zero-pads minutes, and renders
"12:05 ampm" with the AM/PM suffix but without the seconds (they are
shown by a separate overlay element); the part_000 variant zero-pads
minutes and seconds and renders "0:05:09", leaving hour 0 as 0. -/
theorem c5_format_time_values :
    IndexJs.formatTime 0 5 9 ("AM") = Nat.repr 12 ++ ":" ++
      padStart2 (Nat.repr 5) ++ " " ++ ("AM") ∧
    IndexJs.formatTime 0 5 9 ("PM") = "12:" ++ "05" ++ " PM" ∧
    Part000.formatTime 0 5 9 = Nat.repr 0 ++ ":" ++ padStart2 (Nat.repr 5) ++
      ":" ++ padStart2 (Nat.repr 9) := by
  decide

/-- C6 counterexample: the rotation angles as computed by the code are
real numbers that are NOT equal after one period of the driving clock
component: the second angle at fracSeconds = 0 + 60 differs from the
second angle at fracSeconds = 0 (they differ by exactly 2 pi), in both
variants. -/
theorem c6_angle_not_equal_after_period :
    IndexJs.secondAngleOf (0 + 60) ≠ IndexJs.secondAngleOf 0 ∧
    Part000.secondAngleOf (0 + 60) ≠ Part000.secondAngleOf 0 := by
  constructor <;>
    · simp only [IndexJs.secondAngleOf, Part000.secondAngleOf, IndexJs.MIDNIGHT,
        Part000.MIDNIGHT]
      intro h
      norm_num at h
      exact Real.pi_ne_zero h

/-- C6 amended: after one period of the driving clock component the
rotation angle shifts by exactly -2 pi, so the angles are equal modulo
2 pi and every sinusoidal remap of them (the only way the code consumes
them) is periodic: sin of the second/minute angle has period 60 in
fracSeconds/fracMinutes and sin of the hour angle has period 12 in
fracHours. -/
theorem c6_angle_periodicity_mod_two_pi (x : ℝ) :
    IndexJs.secondAngleOf (x + 60) = IndexJs.secondAngleOf x - 2 * Real.pi ∧
    Real.sin (IndexJs.secondAngleOf (x + 60)) = Real.sin (IndexJs.secondAngleOf x) ∧
    IndexJs.minuteAngleOf (x + 60) = IndexJs.minuteAngleOf x - 2 * Real.pi ∧
    Real.sin (IndexJs.minuteAngleOf (x + 60)) = Real.sin (IndexJs.minuteAngleOf x) ∧
    IndexJs.hourAngleOf (x + 12) = IndexJs.hourAngleOf x - 2 * Real.pi ∧
    Real.sin (IndexJs.hourAngleOf (x + 12)) = Real.sin (IndexJs.hourAngleOf x) ∧
    Part000.secondAngleOf (x + 60) = Part000.secondAngleOf x - 2 * Real.pi ∧
    Real.sin (Part000.secondAngleOf (x + 60)) = Real.sin (Part000.secondAngleOf x) := by
  have hs : IndexJs.secondAngleOf (x + 60) = IndexJs.secondAngleOf x - 2 * Real.pi := by
    simp only [IndexJs.secondAngleOf, IndexJs.MIDNIGHT]; ring
  have hm : IndexJs.minuteAngleOf (x + 60) = IndexJs.minuteAngleOf x - 2 * Real.pi := by
    simp only [IndexJs.minuteAngleOf, IndexJs.MIDNIGHT]; ring
  have hh : IndexJs.hourAngleOf (x + 12) = IndexJs.hourAngleOf x - 2 * Real.pi := by
    simp only [IndexJs.hourAngleOf, IndexJs.MIDNIGHT]; ring
  have hp : Part000.secondAngleOf (x + 60) = Part000.secondAngleOf x - 2 * Real.pi := by
    simp only [Part000.secondAngleOf, Part000.MIDNIGHT]; ring
  exact ⟨hs, by rw [hs, Real.sin_sub_two_pi], hm, by rw [hm, Real.sin_sub_two_pi],
    hh, by rw [hh, Real.sin_sub_two_pi], hp, by rw [hp, Real.sin_sub_two_pi]⟩

/-- Helper: in index.js, MIDNIGHT - pi/2 = 0. -/
lemma indexjs_midnight_sub_half_pi : IndexJs.MIDNIGHT - Real.pi / 2 = 0 := by
  simp only [IndexJs.MIDNIGHT]; ring

/-- C9: at the sample 03:00:00.000 the index.js fractional hours equal
3.0, the hour angle equals MIDNIGHT - pi/2 in both variants, and the
speed parameters written that frame equal the documented formula
baseSpeed + speedRange * f(hourAngle) evaluated at that angle (f =
abs-sin with base 0.3, range 1.5 in index.js, where the value is 0.3;
f = sin resp. cos with base 0.01, range 1.5 in part_000). -/
theorem c9_three_oclock_scenario :
    IndexJs.fractionalHours ⟨3, 0, 0, 0⟩ = 3 ∧
    IndexJs.hourRotation ⟨3, 0, 0, 0⟩ = IndexJs.MIDNIGHT - Real.pi / 2 ∧
    (IndexJs.updateScene ⟨3, 0, 0, 0⟩).u_spd_modifier_1 =
      0.3 + |Real.sin (IndexJs.MIDNIGHT - Real.pi / 2)| * 1.5 ∧
    (IndexJs.updateScene ⟨3, 0, 0, 0⟩).u_spd_modifier_2 =
      0.3 + |Real.sin (IndexJs.MIDNIGHT - Real.pi / 2)| * 1.5 ∧
    (IndexJs.updateScene ⟨3, 0, 0, 0⟩).u_spd_modifier_1 = 0.3 ∧
    Part000.hourRotation ⟨3, 0, 0, 0⟩ = Part000.MIDNIGHT - Real.pi / 2 ∧
    (Part000.updateScene ⟨3, 0, 0, 0⟩).u_spd_modifier_1 =
      0.01 + Real.sin (Part000.MIDNIGHT - Real.pi / 2) * 1.5 ∧
    (Part000.updateScene ⟨3, 0, 0, 0⟩).u_spd_modifier_2 =
      0.01 + Real.cos (Part000.MIDNIGHT - Real.pi / 2) * 1.5 := by
  have hfrac : IndexJs.fractionalHours ⟨3, 0, 0, 0⟩ = 3 := by
    simp only [IndexJs.fractionalHours, IndexJs.fractionalMinutes,
      IndexJs.fractionalSeconds]
    norm_num
  have hrot : IndexJs.hourRotation ⟨3, 0, 0, 0⟩ = IndexJs.MIDNIGHT - Real.pi / 2 := by
    simp only [IndexJs.hourRotation, hfrac]
    ring
  have hrotP : Part000.hourRotation ⟨3, 0, 0, 0⟩ = Part000.MIDNIGHT - Real.pi / 2 := by
    simp only [Part000.hourRotation]
    norm_num
    ring
  refine ⟨hfrac, hrot, ?_, ?_, ?_, hrotP, ?_, ?_⟩
  · simp only [IndexJs.updateScene, hrot]
  · simp only [IndexJs.updateScene, hrot]
  · simp only [IndexJs.updateScene, hrot, indexjs_midnight_sub_half_pi,
      Real.sin_zero, abs_zero]
    norm_num
  · simp only [Part000.updateScene, hrotP]
  · simp only [Part000.updateScene, hrotP]

/-- C10: in the index.js variant every valid clock sample yields
identical parameter triples for the two wave layers: both layers are
driven by the same abs-sin of the same angle. -/
theorem c10_indexjs_layers_identical (c : ClockSample) (h : c.Valid) :
    (IndexJs.updateScene c).u_noise_amp_1 = (IndexJs.updateScene c).u_noise_amp_2 ∧
    (IndexJs.updateScene c).u_noise_freq_1 = (IndexJs.updateScene c).u_noise_freq_2 ∧
    (IndexJs.updateScene c).u_spd_modifier_1 =
      (IndexJs.updateScene c).u_spd_modifier_2 :=
  ⟨rfl, rfl, rfl⟩

/-- C10 witness: the equalities at the concrete valid sample
01:02:03.004. -/
theorem c10_indexjs_layers_identical_witness :
    ClockSample.Valid ⟨1, 2, 3, 4⟩ ∧
    ((IndexJs.updateScene ⟨1, 2, 3, 4⟩).u_noise_amp_1 =
      (IndexJs.updateScene ⟨1, 2, 3, 4⟩).u_noise_amp_2 ∧
    (IndexJs.updateScene ⟨1, 2, 3, 4⟩).u_noise_freq_1 =
      (IndexJs.updateScene ⟨1, 2, 3, 4⟩).u_noise_freq_2 ∧
    (IndexJs.updateScene ⟨1, 2, 3, 4⟩).u_spd_modifier_1 =
      (IndexJs.updateScene ⟨1, 2, 3, 4⟩).u_spd_modifier_2) :=
  ⟨by decide, c10_indexjs_layers_identical ⟨1, 2, 3, 4⟩ (by decide)⟩

/-! Continuity of the value noise.  The key step is that a function
assembled cell-by-cell from continuous pieces `g n : ℝ → ℝ` on the
intervals `[n, n+1)` is continuous provided the pieces agree at the
shared cell boundaries (`g n 1 = g (n+1) 0`) — exactly what the shared
corner hashes of `noise` provide. -/

/-- Gluing lemma: `x ↦ g ⌊x⌋ (fract x)` is continuous when each piece
is continuous and consecutive pieces agree at the boundary. -/
lemma continuous_cellwise (g : ℤ → ℝ → ℝ) (hg : ∀ n, Continuous (g n))
    (hglue : ∀ n : ℤ, g n 1 = g (n + 1) 0) :
    Continuous fun x : ℝ => g ⌊x⌋ (Int.fract x) := by
  rw [continuous_iff_continuousAt]
  intro a
  rcases eq_or_ne ((⌊a⌋ : ℝ)) a with ha | ha
  · -- boundary point: a is the integer ⌊a⌋
    have hfa : Int.fract a = 0 := by
      rw [← ha]
      exact Int.fract_intCast _
    have hb : g (⌊a⌋ - 1) 1 = g ⌊a⌋ 0 := by
      have h := hglue (⌊a⌋ - 1)
      rwa [sub_add_cancel] at h
    rw [continuousAt_iff_continuous_left_right]
    constructor
    · -- from the left the function agrees with the piece of cell ⌊a⌋ - 1
      have hk : Continuous fun x : ℝ => g (⌊a⌋ - 1) (x - ((⌊a⌋ : ℝ) - 1)) :=
        (hg (⌊a⌋ - 1)).comp (continuous_id.sub continuous_const)
      apply hk.continuousWithinAt.congr_of_eventuallyEq
      · filter_upwards [Ioc_mem_nhdsWithin_Iic
          (show a ∈ Set.Ioc (a - 1) a from ⟨by linarith, le_refl a⟩)] with x hx
        rcases eq_or_lt_of_le hx.2 with hxa | hxa
        · rw [hxa, hfa]
          have h1 : a - ((⌊a⌋ : ℝ) - 1) = 1 := by rw [ha]; ring
          rw [h1]
          exact hb.symm
        · have hfloor : ⌊x⌋ = ⌊a⌋ - 1 := by
            rw [Int.floor_eq_iff]
            push_cast
            constructor
            · linarith [hx.1, ha.le]
            · linarith [ha.ge]
          simp only [Int.fract, hfloor]
          push_cast
          ring_nf
      · rw [hfa]
        have h1 : a - ((⌊a⌋ : ℝ) - 1) = 1 := by rw [ha]; ring
        rw [h1]
        exact hb.symm
    · -- from the right the function agrees with the piece of cell ⌊a⌋
      have hk : Continuous fun x : ℝ => g ⌊a⌋ (x - (⌊a⌋ : ℝ)) :=
        (hg ⌊a⌋).comp (continuous_id.sub continuous_const)
      apply hk.continuousWithinAt.congr_of_eventuallyEq
      · filter_upwards [Ico_mem_nhdsWithin_Ici
          (show a ∈ Set.Ico a (a + 1) from ⟨le_refl a, by linarith⟩)] with x hx
        have hfloor : ⌊x⌋ = ⌊a⌋ := by
          rw [Int.floor_eq_iff]
          constructor
          · linarith [hx.1, ha.le]
          · linarith [hx.2, ha.ge]
        simp only [Int.fract, hfloor]
      · rw [hfa]
        have h1 : a - (⌊a⌋ : ℝ) = 0 := by rw [ha]; ring
        rw [h1]
  · -- interior point: the floor is locally constant around a
    have h1 : ((⌊a⌋ : ℝ)) < a := lt_of_le_of_ne (Int.floor_le a) ha
    have h2 : a < (⌊a⌋ : ℝ) + 1 := Int.lt_floor_add_one a
    have hk : Continuous fun x : ℝ => g ⌊a⌋ (x - (⌊a⌋ : ℝ)) :=
      (hg ⌊a⌋).comp (continuous_id.sub continuous_const)
    apply hk.continuousAt.congr
    filter_upwards [Ioo_mem_nhds h1 h2] with x hx
    have hfloor : ⌊x⌋ = ⌊a⌋ := by
      rw [Int.floor_eq_iff]
      constructor
      · exact le_of_lt hx.1
      · exact hx.2
    simp only [Int.fract, hfloor]

/-- The restriction of `noise` to the horizontal line at height `y`,
as a function of the cell index `n = ⌊x⌋` and the fractional offset
`t = fract x`; unfolding `noise` at `(x, y)` gives exactly this. -/
noncomputable def noiseRow (y : ℝ) (n : ℤ) (t : ℝ) : ℝ :=
  mix (random ((n : ℝ), (⌊y⌋ : ℝ))) (random ((n : ℝ) + 1, (⌊y⌋ : ℝ)))
      (t * t * (3 - 2 * t)) +
    (random ((n : ℝ), (⌊y⌋ : ℝ) + 1) - random ((n : ℝ), (⌊y⌋ : ℝ))) *
      (Int.fract y * Int.fract y * (3 - 2 * Int.fract y)) *
      (1 - t * t * (3 - 2 * t)) +
    (random ((n : ℝ) + 1, (⌊y⌋ : ℝ) + 1) - random ((n : ℝ) + 1, (⌊y⌋ : ℝ))) *
      (t * t * (3 - 2 * t)) *
      (Int.fract y * Int.fract y * (3 - 2 * Int.fract y))

/-- On the line at height `y`, `noise` is the cell-wise assembly of
`noiseRow y`. -/
lemma noise_eq_noiseRow (x y : ℝ) : noise (x, y) = noiseRow y ⌊x⌋ (Int.fract x) := rfl

/-- Each piece of `noiseRow` is a polynomial in `t`, hence continuous. -/
lemma noiseRow_continuous (y : ℝ) (n : ℤ) : Continuous (noiseRow y n) := by
  unfold noiseRow mix
  fun_prop

/-- Adjacent cells share their corner hashes, and the Hermite weights
are 0 and 1 at the cell edges, so consecutive pieces of `noiseRow`
agree at the boundary. -/
lemma noiseRow_glue (y : ℝ) (n : ℤ) : noiseRow y n 1 = noiseRow y (n + 1) 0 := by
  unfold noiseRow mix
  push_cast
  ring

/-- For every fixed `y`, `x ↦ noise (x, y)` is continuous, across the
integer cell boundaries included. -/
lemma continuous_noise_along_x (y : ℝ) : Continuous fun x : ℝ => noise (x, y) := by
  have h := continuous_cellwise (noiseRow y) (noiseRow_continuous y) (noiseRow_glue y)
  have hfun : (fun x : ℝ => noise (x, y)) =
      fun x : ℝ => noiseRow y ⌊x⌋ (Int.fract x) :=
    funext fun x => noise_eq_noiseRow x y
  rw [hfun]
  exact h

/-- C8: the noise function is continuous across integer cell
boundaries: for every point p, |noise(p) - noise(p + eps*(1,0))| tends
to 0 as eps tends to 0, because adjacent cells share corner hashes and
the Hermite weights vanish at the cell edges. -/
theorem c8_noise_continuous_along_x (p : ℝ × ℝ) :
    Filter.Tendsto (fun eps : ℝ => |noise (p.1 + eps, p.2) - noise p|)
      (nhds 0) (nhds 0) := by
  obtain ⟨px, py⟩ := p
  have hc : Continuous fun x : ℝ => noise (x, py) := continuous_noise_along_x py
  have hshift : Filter.Tendsto (fun eps : ℝ => px + eps) (nhds 0) (nhds px) := by
    simpa using (continuous_add_left px).tendsto (0 : ℝ)
  have h1 : Filter.Tendsto (fun eps : ℝ => noise (px + eps, py))
      (nhds 0) (nhds (noise (px, py))) := (hc.tendsto px).comp hshift
  have h2 := (h1.sub_const (noise (px, py))).abs
  simpa using h2

end WaveClock
